import Mathlib

/-!
Verification of the kv-assets asset-manifest indexing and lookup layer.

Strings from the Rust code (`String` / `&str`) are modelled as UTF-8 byte
sequences (`List Nat`, each element a byte value); machine integers `u64`
are `Nat` with explicit bounds `< 2^64` where the binary codec needs them.
The bincode 1.x serialization used by the crate (fixint encoding: `u64` as
8 little-endian bytes, strings and maps length-prefixed with a `u64`,
trailing bytes allowed on deserialize) is embedded as executable
encode/decode functions. `HashMap<String, AssetMetadata>` values are
represented by association lists with insert-replaces semantics
(`insertKV` / `mapGet`); a serialized map is the entry sequence in the
iteration order bincode met.
-/

namespace KvAssets

/-- A Rust string / byte slice, as its sequence of byte values. -/
abbrev ByteStr := List Nat

/-- Struct `AssetMetadata` from src/assets.rs: storage path within the namespace,
last-modified time in UTC seconds since epoch, and file size. -/
structure AssetMetadata where
  path : ByteStr
  modified : Nat
  size : Nat
deriving DecidableEq, Repr

/-- The entry sequence of an `AssetIndex` (`HashMap<String, AssetMetadata>`),
in bincode serialization order. -/
abbrev AssetIndexL := List (ByteStr × AssetMetadata)

/-- bincode fixint encoding of a `u64`: 8 little-endian bytes. -/
def encU64 (n : Nat) : List Nat :=
  [n % 256, n / 256 % 256, n / 65536 % 256, n / 16777216 % 256,
   n / 4294967296 % 256, n / 1099511627776 % 256,
   n / 281474976710656 % 256, n / 72057594037927936 % 256]

/-- Decode 8 little-endian bytes as a `u64`, returning the remaining input. -/
def decU64 : List Nat → Option (Nat × List Nat)
  | b0 :: b1 :: b2 :: b3 :: b4 :: b5 :: b6 :: b7 :: rest =>
    some (b0 + 256 * b1 + 65536 * b2 + 16777216 * b3 + 4294967296 * b4
      + 1099511627776 * b5 + 281474976710656 * b6 + 72057594037927936 * b7, rest)
  | _ => none

/-- A UTF-8 continuation byte (0x80..=0xBF). -/
def isCont (b : Nat) : Bool := 128 ≤ b && b ≤ 191

/-- UTF-8 validity of a byte sequence, as Rust `str::from_utf8` checks it
(including overlong-form and surrogate rejections). bincode's `String`
deserializer performs this check. -/
def isValidUtf8 : List Nat → Bool
  | [] => true
  | b :: r =>
    if b ≤ 127 then isValidUtf8 r
    else if 194 ≤ b && b ≤ 223 then
      match r with
      | c1 :: r1 => isCont c1 && isValidUtf8 r1
      | [] => false
    else if b = 224 then
      match r with
      | c1 :: c2 :: r2 => (160 ≤ c1 && c1 ≤ 191) && isCont c2 && isValidUtf8 r2
      | _ => false
    else if (225 ≤ b && b ≤ 236) || b = 238 || b = 239 then
      match r with
      | c1 :: c2 :: r2 => isCont c1 && isCont c2 && isValidUtf8 r2
      | _ => false
    else if b = 237 then
      match r with
      | c1 :: c2 :: r2 => (128 ≤ c1 && c1 ≤ 159) && isCont c2 && isValidUtf8 r2
      | _ => false
    else if b = 240 then
      match r with
      | c1 :: c2 :: c3 :: r3 =>
        (144 ≤ c1 && c1 ≤ 191) && isCont c2 && isCont c3 && isValidUtf8 r3
      | _ => false
    else if 241 ≤ b && b ≤ 243 then
      match r with
      | c1 :: c2 :: c3 :: r3 => isCont c1 && isCont c2 && isCont c3 && isValidUtf8 r3
      | _ => false
    else if b = 244 then
      match r with
      | c1 :: c2 :: c3 :: r3 =>
        (128 ≤ c1 && c1 ≤ 143) && isCont c2 && isCont c3 && isValidUtf8 r3
      | _ => false
    else false

/-- bincode encoding of a string: `u64` byte length, then the UTF-8 bytes. -/
def encStr (s : ByteStr) : List Nat := encU64 s.length ++ s

/-- bincode decoding of a string: length prefix, then that many bytes,
which must be valid UTF-8. -/
def decStr (bs : List Nat) : Option (ByteStr × List Nat) :=
  match decU64 bs with
  | none => none
  | some (n, rest) =>
    if n ≤ rest.length then
      if isValidUtf8 (rest.take n) then some (rest.take n, rest.drop n) else none
    else none

/-- bincode encoding of `AssetMetadata`: fields in declaration order. -/
def encMeta (m : AssetMetadata) : List Nat :=
  encStr m.path ++ encU64 m.modified ++ encU64 m.size

/-- bincode decoding of `AssetMetadata`. -/
def decMeta (bs : List Nat) : Option (AssetMetadata × List Nat) :=
  match decStr bs with
  | none => none
  | some (p, r1) =>
    match decU64 r1 with
    | none => none
    | some (mo, r2) =>
      match decU64 r2 with
      | none => none
      | some (sz, r3) => some ({ path := p, modified := mo, size := sz }, r3)

/-- bincode encoding of one map entry: key string, then the value struct. -/
def encEntry (e : ByteStr × AssetMetadata) : List Nat := encStr e.1 ++ encMeta e.2

/-- bincode decoding of one map entry. -/
def decEntry (bs : List Nat) : Option ((ByteStr × AssetMetadata) × List Nat) :=
  match decStr bs with
  | none => none
  | some (k, r1) =>
    match decMeta r1 with
    | none => none
    | some (m, r2) => some ((k, m), r2)

/-- Decode exactly `n` map entries. -/
def decEntries : Nat → List Nat → Option (AssetIndexL × List Nat)
  | 0, bs => some ([], bs)
  | n + 1, bs =>
    match decEntry bs with
    | none => none
    | some (e, r) =>
      match decEntries n r with
      | none => none
      | some (l, r2) => some (e :: l, r2)

/-- Encoding `bincode::serialize` of an `AssetIndex`: `u64` entry count, then the
entries in iteration order. -/
def encIndex (l : AssetIndexL) : List Nat :=
  encU64 l.length ++ l.flatMap encEntry

/-- Decoding `bincode::deserialize` of an `AssetIndex`. The legacy bincode entry
point allows trailing bytes, so any remaining input is discarded. -/
def decIndex (bs : List Nat) : Option AssetIndexL :=
  match decU64 bs with
  | none => none
  | some (n, rest) =>
    match decEntries n rest with
    | none => none
    | some (l, _) => some l

/-- The crate's `Error` enum from src/lib.rs. HTTP bodies are carried as
raw bytes (the Rust code carries their lossy UTF-8 rendering); error
message strings whose exact text no claim inspects are carried as the
`String` the code formats. -/
inductive Error where
  | KVHttp (e : String) (body : List Nat)
  | KVHttpStatus (status : Nat) (body : List Nat)
  | KVKeyNotFound (key : ByteStr) (status : Nat)
  | DeserializeAssets (e : String)
  | EmptyKey
  | Wrangler (e : String)
  | IOError (e : String)
  | InvalidAssetsBinPath (s : String)
  | CreateDir (s : String)
  | InvalidAssetPath (s : String)
  | MissingWranglerFile (s : String)
  | TTLTooShort
  | Message (s : String)
deriving DecidableEq, Repr

/-- Rust `path.strip_prefix('/').unwrap_or(path)`: remove exactly one
leading `/` (byte 47) when present. -/
def stripSlash (p : ByteStr) : ByteStr :=
  match p with
  | [] => []
  | b :: r => if b = 47 then r else b :: r

/-- Rust `HashMap::insert`: replace the value at an existing key, else append. -/
def insertKV : AssetIndexL → ByteStr → AssetMetadata → AssetIndexL
  | [], k, v => [(k, v)]
  | (k0, v0) :: rest, k, v =>
    if k0 = k then (k, v) :: rest else (k0, v0) :: insertKV rest k v

/-- Rust `HashMap::get` on an association list maintained by `insertKV`. -/
def mapGet : AssetIndexL → ByteStr → Option AssetMetadata
  | [], _ => none
  | (k0, v0) :: rest, k => if k0 = k then some v0 else mapGet rest k

/-- Build the `HashMap` that bincode's map deserializer produces from the
decoded entry sequence: sequential inserts, later duplicates overwrite. -/
def buildMap (l : AssetIndexL) : AssetIndexL :=
  l.foldl (fun acc e => insertKV acc e.1 e.2) []

/-- The `KVAssets` handler state from src/assets.rs: the raw index bytes
and the `RefCell<Option<AssetIndex>>` lazy-decode cache. The `KV`
credential fields play no role in the claims and are omitted; stateful
methods are modelled as explicit state-passing functions. -/
structure KVAssets where
  index : List Nat
  map : Option AssetIndexL
deriving DecidableEq, Repr

/-- Method `KVAssets::ensure_map`: decode the index bytes into the cache on first
use; a decode failure is returned as `DeserializeAssets` and leaves the
cache empty. -/
def ensure_map (st : KVAssets) : KVAssets × Except Error Unit :=
  match st.map with
  | some _ => (st, .ok ())
  | none =>
    match decIndex st.index with
    | none => (st, .error (.DeserializeAssets "deserialize"))
    | some l => ({ st with map := some (buildMap l) }, .ok ())

/-- Method `KVAssets::lookup_key`: strip one leading slash, reject the empty key,
lazily decode, and look the path up in the cached map. -/
def lookup_key (st : KVAssets) (path : ByteStr) :
    KVAssets × Except Error (Option AssetMetadata) :=
  let p := stripSlash path
  if p = [] then (st, .error .EmptyKey)
  else
    match ensure_map st with
    | (st1, .error e) => (st1, .error e)
    | (st1, .ok _) => (st1, .ok (mapGet (st1.map.getD []) p))

/-- Outcome of reading an HTTP response body (`resp.bytes()`). -/
inductive BodyResult where
  | fail (e : String)
  | bytes (bs : List Nat)
deriving DecidableEq, Repr

/-- Outcome of one HTTP request (`client...send()`): transport failure, or
a response with a status code and a body. -/
inductive HttpResult where
  | fail (e : String)
  | resp (status : Nat) (body : BodyResult)
deriving DecidableEq, Repr

/-- Predicate `reqwest::StatusCode::is_success`: 2xx. -/
def isSuccessStatus (s : Nat) : Bool := 200 ≤ s && s < 300

/-- Method `KV::get_kv_value` over a remote-store oracle mapping each storage key
to the HTTP outcome of fetching it: transport errors become `KVHttp`, a
non-2xx status becomes `KVKeyNotFound(key, status)`, and on 2xx the body
bytes are returned (a body read failure becomes `KVHttp`). -/
def get_kv_value (remote : ByteStr → HttpResult) (key : ByteStr) :
    Except Error ByteStr :=
  match remote key with
  | .fail e => .error (.KVHttp e [])
  | .resp status body =>
    if isSuccessStatus status then
      match body with
      | .fail e => .error (.KVHttp e [])
      | .bytes bs => .ok bs
    else .error (.KVKeyNotFound key status)

/-- Method `KVAssets::get_asset`: look the path up in the index, return `none`
when unindexed, otherwise fetch the metadata's storage key (`md.path`)
from the remote store. -/
def get_asset (st : KVAssets) (remote : ByteStr → HttpResult) (key : ByteStr) :
    KVAssets × Except Error (Option ByteStr) :=
  match lookup_key st key with
  | (st1, .error e) => (st1, .error e)
  | (st1, .ok none) => (st1, .ok none)
  | (st1, .ok (some md)) =>
    match get_kv_value remote md.path with
    | .error e => (st1, .error e)
    | .ok doc => (st1, .ok (some doc))

/-- The `WriteKVResponse` JSON body of a KV write; `errors`/`messages`
hold renderings of the JSON values. -/
structure WriteKVResponse where
  success : Bool
  errors : List String
  messages : List String
deriving DecidableEq, Repr

/-- Response handling of `KV::put_kv_value` after the request was sent:
read the body (failure: `KVHttp`), reject non-2xx (`KVHttpStatus`), parse
the body as `WriteKVResponse` via the serde parse oracle (failure:
`KVHttp`), and require `success == true` (else `Message`). -/
def handle_put_resp (result : HttpResult)
    (parse : List Nat → Option WriteKVResponse) : Except Error Unit :=
  match result with
  | .fail e => .error (.KVHttp e [])
  | .resp status body =>
    match body with
    | .fail e => .error (.KVHttp e [])
    | .bytes bs =>
      if isSuccessStatus status then
        match parse bs with
        | none => .error (.KVHttp "json" bs)
        | some wr =>
          if wr.success then .ok ()
          else .error (.Message "writing key: response not successful")
      else .error (.KVHttpStatus status bs)

/-- Method `KV::put_kv_value`: a TTL below 60 is rejected as `TTLTooShort` while
the URL is still being formatted, before the request is sent; otherwise
the request is issued and the response handled. The returned `Bool`
records whether a network request was issued. -/
def put_kv_value (result : HttpResult)
    (parse : List Nat → Option WriteKVResponse)
    (ttl : Option Nat) : Bool × Except Error Unit :=
  match ttl with
  | some t =>
    if t < 60 then (false, .error .TTLTooShort)
    else (true, handle_put_resp result parse)
  | none => (true, handle_put_resp result parse)

/-- How the filesystem reports a file's modification time in
`make_index`: `std::fs::Metadata::modified()` may error
(`unavailable`), `duration_since(UNIX_EPOCH)` may error for a pre-epoch
time (`beforeEpoch`), or it yields whole seconds. -/
inductive MTime where
  | unavailable
  | beforeEpoch
  | atSecs (secs : Nat)
deriving DecidableEq, Repr

/-- Result of a successful `std::fs::metadata` call: file length and
modification time. -/
structure FileMeta where
  size : Nat
  mtime : MTime
deriving DecidableEq, Repr

/-- Outcome of running build-side code that may return a typed error or
abort the process via `panic!`. -/
inductive RunResult (α : Type) where
  | ok (a : α)
  | err (e : Error)
  | panicked (msg : String)
deriving DecidableEq, Repr

/-- Keep only a successful outcome. -/
def RunResult.toOption {α : Type} : RunResult α → Option α
  | .ok a => some a
  | _ => none

/-- The per-file body of `make_index`'s loop: stat `asset_dir/k` via the
filesystem oracle `fs` (stat failure is a typed `IO` error), then read the
modified time, panicking via `unwrap_or_else` when it is unavailable or
before the epoch, and build the metadata with storage key `v`. -/
def statMeta (fs : ByteStr → Option FileMeta) (k v : ByteStr) :
    RunResult AssetMetadata :=
  match fs k with
  | none => .err (.IOError "failed reading asset file")
  | some fm =>
    match fm.mtime with
    | .unavailable => .panicked "cannot read modified time"
    | .beforeEpoch => .panicked "invalid timestamp for file"
    | .atSecs s => .ok { path := v, modified := s, size := fm.size }

/-- The loop of `make_index`: fold the `(logical_path, storage_key)` pairs
into the index with `HashMap::insert`. -/
def makeIndexGo (fs : ByteStr → Option FileMeta) (acc : AssetIndexL) :
    List (ByteStr × ByteStr) → RunResult AssetIndexL
  | [] => .ok acc
  | (k, v) :: rest =>
    match statMeta fs k v with
    | .err e => .err e
    | .panicked m => .panicked m
    | .ok md => makeIndexGo fs (insertKV acc k md) rest

/-- Function `make_index` from src/upload.rs over the asset-manifest pair stream. -/
def make_index (fs : ByteStr → Option FileMeta)
    (pairs : List (ByteStr × ByteStr)) : RunResult AssetIndexL :=
  makeIndexGo fs [] pairs

/-- The storage key of the last occurrence of `k` in the pair stream. -/
def lastLookup : List (ByteStr × ByteStr) → ByteStr → Option ByteStr
  | [], _ => none
  | (a, b) :: rest, k =>
    match lastLookup rest k with
    | some v => some v
    | none => if a = k then some b else none

/-- The `Update` status enum of src/upload.rs. -/
inductive Update where
  | New
  | NoChange
  | Updated
deriving DecidableEq, Repr

/-- Function `write_index`: serialize the index, classify against the previous
artifact read (`none` models any `std::fs::read` failure), and write the
new bytes only for `New`/`Updated`. Returns the status and the bytes
written (`none` when no write occurs). Serialization of an in-memory map
cannot fail, so the `Error::IO` branch on `bincode::serialize` is dead. -/
def write_index (prev : Option (List Nat)) (asset_index : AssetIndexL) :
    Update × Option (List Nat) :=
  let bytes := encIndex asset_index
  let u : Update :=
    match prev with
    | some existing_bytes => if bytes = existing_bytes then .NoChange else .Updated
    | none => .New
  match u with
  | .New => (u, some bytes)
  | .Updated => (u, some bytes)
  | .NoChange => (u, none)

/-- Validity of one index entry for the claims about serialization: the
key is a non-empty string of valid UTF-8 whose length, like the metadata's
numeric fields and path length, fits in a `u64` (guaranteed for any value
a Rust `HashMap<String, AssetMetadata>` can hold). -/
abbrev validEntry (e : ByteStr × AssetMetadata) : Prop :=
  e.1 ≠ [] ∧ isValidUtf8 e.1 = true ∧ e.1.length < 18446744073709551616 ∧
  isValidUtf8 e.2.path = true ∧ e.2.path.length < 18446744073709551616 ∧
  e.2.modified < 18446744073709551616 ∧ e.2.size < 18446744073709551616

theorem decU64_encU64 (n : Nat) (rest : List Nat)
    (h : n < 18446744073709551616) :
    decU64 (encU64 n ++ rest) = some (n, rest) := by
  simp only [encU64, List.cons_append, List.nil_append, decU64,
    Option.some.injEq, Prod.mk.injEq]
  exact ⟨by omega, trivial⟩

theorem decStr_encStr (s : ByteStr) (rest : List Nat)
    (hu : isValidUtf8 s = true) (hl : s.length < 18446744073709551616) :
    decStr (encStr s ++ rest) = some (s, rest) := by
  have htake : (s ++ rest).take s.length = s := List.take_left s rest
  have hdrop : (s ++ rest).drop s.length = rest := List.drop_left s rest
  simp only [encStr, List.append_assoc, decStr, decU64_encU64 _ _ hl]
  rw [if_pos (by simp), htake, hdrop, if_pos hu]

theorem decMeta_encMeta (m : AssetMetadata) (rest : List Nat)
    (hu : isValidUtf8 m.path = true)
    (hp : m.path.length < 18446744073709551616)
    (hm : m.modified < 18446744073709551616)
    (hs : m.size < 18446744073709551616) :
    decMeta (encMeta m ++ rest) = some (m, rest) := by
  simp only [encMeta, List.append_assoc, decMeta,
    decStr_encStr m.path _ hu hp, decU64_encU64 _ _ hm, decU64_encU64 _ _ hs]

theorem decEntry_encEntry (e : ByteStr × AssetMetadata) (rest : List Nat)
    (hv : validEntry e) :
    decEntry (encEntry e ++ rest) = some (e, rest) := by
  obtain ⟨-, hu, hl, hup, hlp, hm, hs⟩ := hv
  simp only [encEntry, List.append_assoc, decEntry,
    decStr_encStr e.1 _ hu hl, decMeta_encMeta e.2 _ hup hlp hm hs]

theorem decEntries_enc (l : AssetIndexL) (rest : List Nat)
    (hv : ∀ e ∈ l, validEntry e) :
    decEntries l.length (l.flatMap encEntry ++ rest) = some (l, rest) := by
  induction l with
  | nil => simp [decEntries]
  | cons e t ih =>
    have he : validEntry e := hv e (List.mem_cons_self e t)
    have ht : ∀ x ∈ t, validEntry x := fun x hx => hv x (List.mem_cons_of_mem e hx)
    simp only [List.length_cons, List.flatMap_cons, List.append_assoc, decEntries,
      decEntry_encEntry e _ he, ih ht]

/-- Claim C1: decoding the bytes produced by encoding a valid
`AssetIndex` (non-empty string keys, distinct keys, in-range `u64`
fields) yields exactly the index that was encoded. -/
theorem index_roundtrip (l : AssetIndexL)
    (hv : ∀ e ∈ l, validEntry e)
    (_hnd : (l.map Prod.fst).Nodup)
    (hlen : l.length < 18446744073709551616) :
    decIndex (encIndex l) = some l := by
  have h := decEntries_enc l [] hv
  rw [List.append_nil] at h
  simp only [encIndex, decIndex, decU64_encU64 _ _ hlen, h]

/-- Witness for C1 at a concrete one-entry index. -/
theorem index_roundtrip_witness :
    decIndex (encIndex [([97], { path := [98, 99], modified := 3, size := 4 })])
      = some [([97], { path := [98, 99], modified := 3, size := 4 })] :=
  index_roundtrip _ (by decide) (by decide) (by decide)

/-- Claim C7: on any handler state (any index blob, any cache state),
`lookup_key ""` and `lookup_key "/"` both fail with `EmptyKey`, leaving
the state untouched — in particular no decode of the index bytes is
attempted. -/
theorem lookup_key_empty (st : KVAssets) :
    lookup_key st [] = (st, .error .EmptyKey) ∧
    lookup_key st [47] = (st, .error .EmptyKey) :=
  ⟨rfl, rfl⟩

/-- Claim C6: `lookup_key` strips exactly one leading slash, so for any
state and any path `p` that does not itself start with a slash (as no key
of a valid index does), `lookup_key ("/" ++ p)` and `lookup_key p` agree
on both result and resulting state; a path with two leading slashes has
only the first stripped. -/
theorem lookup_key_strip_slash :
    (∀ (st : KVAssets) (p : ByteStr), p.head? ≠ some 47 →
      lookup_key st (47 :: p) = lookup_key st p) ∧
    (∀ q : ByteStr, stripSlash (47 :: 47 :: q) = 47 :: q) := by
  constructor
  · intro st p hp
    have h1 : stripSlash (47 :: p) = p := by simp [stripSlash]
    have h2 : stripSlash p = p := by
      cases p with
      | nil => rfl
      | cons b r =>
        have hb : b ≠ 47 := by
          intro hb
          exact hp (by rw [hb]; rfl)
        simp [stripSlash, hb]
    simp only [lookup_key, h1, h2]
  · intro q
    simp [stripSlash]

/-- Witness for C6 at a concrete state and path. -/
theorem lookup_key_strip_slash_witness :
    lookup_key ⟨[], none⟩ [47, 98] = lookup_key ⟨[], none⟩ [98] :=
  lookup_key_strip_slash.1 ⟨[], none⟩ [98] (by decide)

/-- Claim C5: on a fresh handler over bytes that do not decode to an
`AssetIndex`, any `lookup_key` call whose normalized path is non-empty
fails with the typed `DeserializeAssets` error and leaves the state (in
particular the empty cache) unchanged — so a later call with the same bad
bytes returns the same error again and no call ever returns `Ok(None)`. -/
theorem lookup_key_bad_bytes (bytes : List Nat) (path : ByteStr)
    (hdec : decIndex bytes = none) (hne : stripSlash path ≠ []) :
    lookup_key ⟨bytes, none⟩ path
      = (⟨bytes, none⟩, .error (.DeserializeAssets "deserialize")) := by
  simp only [lookup_key, ensure_map, hdec]
  rw [if_neg hne]

/-- Witness for C5 at concrete truncated bytes and a concrete path. -/
theorem lookup_key_bad_bytes_witness :
    lookup_key ⟨[1], none⟩ [97]
      = (⟨[1], none⟩, .error (.DeserializeAssets "deserialize")) :=
  lookup_key_bad_bytes [1] [97] (by decide) (by decide)

/-- Claim C2: `get_asset` returns `Ok(None)` exactly when `lookup_key`
returns `Ok(None)`; and when `lookup_key` finds metadata but the remote
fetch of its storage key answers with a non-2xx status, `get_asset` fails
with the typed `KVKeyNotFound` error (the spec's `RemoteKeyNotFound`)
carrying that storage key and status. -/
theorem get_asset_none_iff (st : KVAssets) (remote : ByteStr → HttpResult)
    (key : ByteStr) :
    ((get_asset st remote key).2 = .ok none ↔ (lookup_key st key).2 = .ok none) ∧
    (∀ (md : AssetMetadata) (s : Nat) (body : BodyResult),
      (lookup_key st key).2 = .ok (some md) →
      remote md.path = .resp s body →
      isSuccessStatus s = false →
      (get_asset st remote key).2 = .error (.KVKeyNotFound md.path s)) := by
  rcases hlk : lookup_key st key with ⟨st1, r⟩
  constructor
  · unfold get_asset
    rw [hlk]
    cases r with
    | error e => simp
    | ok o =>
      cases o with
      | none => simp
      | some md =>
        cases hkv : get_kv_value remote md.path with
        | error e => simp [hkv]
        | ok doc => simp [hkv]
  · intro md s body hmd hremote hs
    have hr : r = .ok (some md) := hmd
    subst hr
    unfold get_asset
    rw [hlk]
    simp only [get_kv_value, hremote, hs]
    simp [hs]

/-- Witness for C2 at a concrete index, key and a 404-answering remote. -/
theorem get_asset_none_iff_witness :
    (get_asset ⟨encIndex [([98], { path := [99], modified := 1, size := 2 })], none⟩
        (fun _ => .resp 404 (.bytes [])) [98]).2
      = .error (.KVKeyNotFound [99] 404) :=
  (get_asset_none_iff ⟨encIndex [([98], { path := [99], modified := 1, size := 2 })], none⟩
      (fun _ => .resp 404 (.bytes [])) [98]).2
    { path := [99], modified := 1, size := 2 } 404 (.bytes [])
    rfl rfl (by decide)

/-- Claim C8: a requested TTL below 60 is rejected with `TTLTooShort` and
no network request is issued; a TTL of 60 or more, or no TTL, passes the
check and the write proceeds to the remote call. -/
theorem put_ttl_floor (result : HttpResult)
    (parse : List Nat → Option WriteKVResponse) (t : Nat) :
    (t < 60 → put_kv_value result parse (some t) = (false, .error .TTLTooShort)) ∧
    (60 ≤ t → (put_kv_value result parse (some t)).1 = true) ∧
    (put_kv_value result parse none).1 = true := by
  refine ⟨fun h => ?_, fun h => ?_, rfl⟩
  · simp [put_kv_value, h]
  · simp [put_kv_value, Nat.not_lt.mpr h]

/-- Witness for C8 at ttl 59 and ttl 60. -/
theorem put_ttl_floor_witness :
    put_kv_value (.resp 200 (.bytes [])) (fun _ => none) (some 59)
      = (false, .error .TTLTooShort) ∧
    (put_kv_value (.resp 200 (.bytes [])) (fun _ => none) (some 60)).1 = true :=
  ⟨(put_ttl_floor (.resp 200 (.bytes [])) (fun _ => none) 59).1 (by decide),
   (put_ttl_floor (.resp 200 (.bytes [])) (fun _ => none) 60).2.1 (by decide)⟩

/-- Claim C10: `put_kv_value` succeeds exactly when the TTL check passes,
the request was sent and answered with a 2xx status, the body was read and
parses as a `WriteKVResponse`, and that response reports
`success == true`; in particular a 2xx reply whose body fails to parse or
reports `success == false` is a typed error, not `Ok`. -/
theorem put_ok_iff (result : HttpResult)
    (parse : List Nat → Option WriteKVResponse) (ttl : Option Nat) :
    (put_kv_value result parse ttl).2 = .ok () ↔
    ((∀ t, ttl = some t → 60 ≤ t) ∧
     ∃ s bs wr, result = .resp s (.bytes bs) ∧ isSuccessStatus s = true ∧
       parse bs = some wr ∧ wr.success = true) := by
  have hresp : handle_put_resp result parse = .ok () ↔
      ∃ s bs wr, result = .resp s (.bytes bs) ∧ isSuccessStatus s = true ∧
        parse bs = some wr ∧ wr.success = true := by
    cases result with
    | fail e => simp [handle_put_resp]
    | resp s body =>
      cases body with
      | fail e => simp [handle_put_resp]
      | bytes bs =>
        cases hsucc : isSuccessStatus s with
        | false => simp [handle_put_resp, hsucc]
        | true =>
          cases hp : parse bs with
          | none => simp [handle_put_resp, hsucc, hp]
          | some wr =>
            cases hwr : wr.success with
            | false => simp [handle_put_resp, hsucc, hp, hwr]
            | true =>
              simp [handle_put_resp, hsucc, hp, hwr]
              exact ⟨s, bs, ⟨rfl, rfl⟩, hsucc, wr, hp, hwr⟩
  cases ttl with
  | none => simpa [put_kv_value] using hresp
  | some t =>
    by_cases ht : t < 60
    · simp only [put_kv_value, if_pos ht]
      constructor
      · intro h
        simp at h
      · rintro ⟨hta, -⟩
        exact absurd (hta t rfl) (by omega)
    · simpa [put_kv_value, if_neg ht, Nat.le_of_not_lt ht] using hresp

/-- Claim C3 counterexample: for a listed file whose modification time
cannot be reported, `make_index` aborts via `panic!` — it does not return
a typed error result (and the crate's `Error` enum has no `ClockError`
variant at all). -/
theorem make_index_clock_counterexample :
    make_index (fun _ => some { size := 5, mtime := .unavailable }) [([97], [98])]
      = .panicked "cannot read modified time" := rfl

/-- Claim C3 amended: when a listed file's modification time is
unavailable or precedes the Unix epoch, `make_index` aborts the process
with a panic message rather than returning a typed error; a failing stat
call, by contrast, does return the typed `IO` error. -/
theorem make_index_bad_mtime_aborts :
    (∀ (fs : ByteStr → Option FileMeta) (k v : ByteStr)
        (ps : List (ByteStr × ByteStr)) (fm : FileMeta),
      fs k = some fm → (fm.mtime = .unavailable ∨ fm.mtime = .beforeEpoch) →
      ∃ msg, make_index fs ((k, v) :: ps) = .panicked msg) ∧
    (∀ (fs : ByteStr → Option FileMeta) (k v : ByteStr)
        (ps : List (ByteStr × ByteStr)),
      fs k = none →
      make_index fs ((k, v) :: ps) = .err (.IOError "failed reading asset file")) := by
  constructor
  · intro fs k v ps fm hfs hbad
    rcases hbad with hm | hm
    · exact ⟨"cannot read modified time", by
        simp [make_index, makeIndexGo, statMeta, hfs, hm]⟩
    · exact ⟨"invalid timestamp for file", by
        simp [make_index, makeIndexGo, statMeta, hfs, hm]⟩
  · intro fs k v ps hfs
    simp [make_index, makeIndexGo, statMeta, hfs]

/-- Witness for the amended C3 at a concrete pre-epoch file. -/
theorem make_index_bad_mtime_aborts_witness :
    ∃ msg, make_index (fun _ => some { size := 9, mtime := .beforeEpoch })
      [([97], [98])] = .panicked msg :=
  make_index_bad_mtime_aborts.1 (fun _ => some { size := 9, mtime := .beforeEpoch })
    [97] [98] [] { size := 9, mtime := .beforeEpoch } rfl (Or.inr rfl)

/-- Claim C4: `write_index` has exactly three outcomes: `New` when the
previous artifact could not be read, `Updated` when the serialized bytes
differ from it, `NoChange` when they are identical; the bytes are written
in the `New`/`Updated` cases and no write occurs for `NoChange`, so a
second build from identical inputs (which yields the same index, since
`make_index` is deterministic) is a `NoChange` with no write. -/
theorem write_index_outcomes (prev : Option (List Nat)) (idx : AssetIndexL) :
    (prev = none → write_index prev idx = (.New, some (encIndex idx))) ∧
    (∀ eb, prev = some eb → eb ≠ encIndex idx →
      write_index prev idx = (.Updated, some (encIndex idx))) ∧
    (write_index (some (encIndex idx)) idx = (.NoChange, none)) ∧
    (∀ (fs : ByteStr → Option FileMeta) (ps : List (ByteStr × ByteStr))
        (idx2 : AssetIndexL),
      make_index fs ps = .ok idx → make_index fs ps = .ok idx2 →
      write_index (some (encIndex idx)) idx2 = (.NoChange, none)) := by
  refine ⟨fun h => ?_, fun eb hp hne => ?_, ?_, fun fs ps idx2 h1 h2 => ?_⟩
  · subst h
    rfl
  · subst hp
    simp [write_index, Ne.symm hne]
  · simp [write_index]
  · rw [h1] at h2
    cases h2
    simp [write_index]

/-- Witness for C4 at a concrete index and previous-artifact states. -/
theorem write_index_outcomes_witness :
    write_index none [([97], { path := [98], modified := 1, size := 2 })]
      = (.New, some (encIndex [([97], { path := [98], modified := 1, size := 2 })])) ∧
    write_index (some [0]) [([97], { path := [98], modified := 1, size := 2 })]
      = (.Updated, some (encIndex [([97], { path := [98], modified := 1, size := 2 })])) ∧
    write_index (some (encIndex [([97], { path := [98], modified := 1, size := 2 })]))
        [([97], { path := [98], modified := 1, size := 2 })]
      = (.NoChange, none) :=
  ⟨(write_index_outcomes none _).1 rfl,
   (write_index_outcomes (some [0]) _).2.1 [0] rfl (by decide),
   (write_index_outcomes none _).2.2.1⟩

theorem lastLookup_cons (a b : ByteStr) (rest : List (ByteStr × ByteStr))
    (k : ByteStr) :
    lastLookup ((a, b) :: rest) k =
      (match lastLookup rest k with
       | some v => some v
       | none => if a = k then some b else none) := rfl

theorem mapGet_insertKV (m : AssetIndexL) (k k' : ByteStr) (v : AssetMetadata) :
    mapGet (insertKV m k v) k' = if k = k' then some v else mapGet m k' := by
  induction m with
  | nil => simp [insertKV, mapGet]
  | cons e rest ih =>
    obtain ⟨k0, v0⟩ := e
    simp only [insertKV]
    by_cases h0 : k0 = k
    · rw [if_pos h0]
      subst h0
      simp only [mapGet]
      by_cases h1 : k0 = k' <;> simp [h1]
    · rw [if_neg h0]
      simp only [mapGet, ih]
      by_cases h1 : k0 = k'
      · have hkk : k ≠ k' := fun h => h0 (h1.trans h.symm)
        simp [h1, hkk]
      · simp [h1]

theorem makeIndexGo_get (fs : ByteStr → Option FileMeta)
    (ps : List (ByteStr × ByteStr)) :
    ∀ (acc idx : AssetIndexL), makeIndexGo fs acc ps = .ok idx →
    ∀ k, mapGet idx k =
      (match lastLookup ps k with
       | some v => (statMeta fs k v).toOption
       | none => mapGet acc k) := by
  induction ps with
  | nil =>
    intro acc idx h k
    cases h
    simp [lastLookup]
  | cons p rest ih =>
    obtain ⟨a, b⟩ := p
    intro acc idx h k
    unfold makeIndexGo at h
    cases hst : statMeta fs a b with
    | err e => rw [hst] at h; cases h
    | panicked m => rw [hst] at h; cases h
    | ok md =>
      rw [hst] at h
      have hrec := ih (insertKV acc a md) idx h k
      rw [hrec, lastLookup_cons]
      cases hll : lastLookup rest k with
      | some v => simp [hll]
      | none =>
        rw [mapGet_insertKV]
        by_cases hak : a = k
        · subst hak
          rw [if_pos rfl]
          simp [hll, hst, RunResult.toOption]
        · simp [hll, hak]

theorem makeIndexGo_total (fs : ByteStr → Option FileMeta)
    (ps : List (ByteStr × ByteStr)) :
    ∀ acc : AssetIndexL, (∀ e ∈ ps, ∃ m, statMeta fs e.1 e.2 = .ok m) →
    ∃ idx, makeIndexGo fs acc ps = .ok idx := by
  induction ps with
  | nil => exact fun acc _ => ⟨acc, rfl⟩
  | cons p rest ih =>
    obtain ⟨a, b⟩ := p
    intro acc hall
    obtain ⟨m, hm⟩ := hall (a, b) (List.mem_cons_self _ _)
    have hrest : ∀ e ∈ rest, ∃ m, statMeta fs e.1 e.2 = .ok m :=
      fun e he => hall e (List.mem_cons_of_mem _ he)
    obtain ⟨idx, hidx⟩ := ih (insertKV acc a m) hrest
    exact ⟨idx, by unfold makeIndexGo; rw [hm]; exact hidx⟩

/-- Claim C9: when `make_index` succeeds, the built index maps each
logical path to the metadata derived from the last occurrence of that
path in the input stream; and duplicates never cause an error — the build
succeeds whenever every listed file stats successfully with a
representable modification time. -/
theorem make_index_last_write_wins :
    (∀ (fs : ByteStr → Option FileMeta) (ps : List (ByteStr × ByteStr))
        (idx : AssetIndexL),
      make_index fs ps = .ok idx →
      ∀ k, mapGet idx k =
        (match lastLookup ps k with
         | some v => (statMeta fs k v).toOption
         | none => none)) ∧
    (∀ (fs : ByteStr → Option FileMeta) (ps : List (ByteStr × ByteStr)),
      (∀ e ∈ ps, ∃ m, statMeta fs e.1 e.2 = .ok m) →
      ∃ idx, make_index fs ps = .ok idx) := by
  constructor
  · intro fs ps idx h k
    have := makeIndexGo_get fs ps [] idx h k
    rw [this]
    cases lastLookup ps k <;> rfl
  · intro fs ps hall
    exact makeIndexGo_total fs ps [] hall

/-- Witness for C9 on a stream listing the same path twice: the second
occurrence's storage key wins. -/
theorem make_index_last_write_wins_witness :
    mapGet [([97], { path := [101], modified := 100, size := 7 })] [97]
      = some { path := [101], modified := 100, size := 7 } := by
  have h := make_index_last_write_wins.1
    (fun _ => some { size := 7, mtime := .atSecs 100 })
    [([97], [100]), ([97], [101])]
    [([97], { path := [101], modified := 100, size := 7 })] rfl [97]
  rw [h]
  rfl

/-- Witness for C10: a 2xx response whose body parses with
`success == true` yields `Ok`. -/
theorem put_ok_iff_witness :
    (put_kv_value (.resp 200 (.bytes [48]))
        (fun _ => some { success := true, errors := [], messages := [] }) none).2
      = .ok () :=
  (put_ok_iff (.resp 200 (.bytes [48]))
      (fun _ => some { success := true, errors := [], messages := [] }) none).2
    ⟨fun _ h => Option.noConfusion h,
     200, [48], { success := true, errors := [], messages := [] },
     rfl, rfl, rfl, rfl⟩

end KvAssets
